import Mathlib

/-!
Verification of the esp8266 MQTT transport driver.

This file gives a shallow embedding of the transport layer
(`transport_esp8266.cpp`, final revision) and of the serial byte pump
(`serial.cpp`): the RX demultiplexer thread `rxThread` is embedded as a
byte-at-a-time step relation on an explicit state type, the send chunker
`esp8266AT_send`, the receive adapter `esp8266AT_recv`, the connection
state machine `esp8266AT_Connect` with its helpers `check_AT` and
`start_TCP`, and the serial-link buffers `xSerialPutChar` /
`xSerialGetChar` / the two pump workers are embedded as pure functions.
Bytes are modelled as `Nat` (ASCII codes: 43 is the plus sign, 73 'I',
80 'P', 68 'D', 44 comma, 58 colon).

Timing (the fixed `SLEEP` settle delays) and the POSIX plumbing
(`mq_open`, `pthread_create`, device I/O) are not modelled; queues are
lists, and environment calls are assumed to succeed, which is the
regime all the verified claims speak about.
-/

/-! ## The rxThread scratch array `char c[10]`

`rxThread` keeps a 10-byte scratch buffer `c`.  Cells 5..8 are never
initialised before `atoi` may read them, so the array is modelled as a
total function from cell index to byte whose initial contents are
arbitrary. -/

/-- The 10-byte scratch array `char c[10]` of `rxThread`. -/
def CArr : Type := Fin 10 → Nat

/-- Writing one cell of the scratch array (`c[i] = v`). An index outside
0..9 never occurs in the embedded code paths. -/
def cset (a : CArr) (i : Nat) (v : Nat) : CArr :=
  fun j => if (j : Nat) = i then v else a j

/-- Reading one cell of the scratch array (`c[i]`). -/
def cget (a : CArr) (i : Nat) : Nat :=
  if h : i < 10 then a ⟨i, h⟩ else 0

/-- The scratch array read out as the 10-byte C character array, in cell
order, as `atoi` sees it. -/
def arrToList (a : CArr) : List Nat :=
  [cget a 0, cget a 1, cget a 2, cget a 3, cget a 4,
   cget a 5, cget a 6, cget a 7, cget a 8, cget a 9]

/-- An all-zero scratch array, used to instantiate theorems at concrete
inputs. -/
def zeroArr : CArr := fun _ => 0

/-! ## `atoi` on the scratch array -/

/-- C `isspace`, over byte values: space and the five control
whitespace characters 9..13. -/
def isSpaceB (b : Nat) : Bool := b = 32 || (9 ≤ b && b ≤ 13)

/-- ASCII decimal digit test, byte values 48..57. -/
def isDigitB (b : Nat) : Bool := 48 ≤ b && b ≤ 57

/-- Value of a list of ASCII decimal digit bytes, most significant
first. -/
def digitsVal (ds : List Nat) : Nat :=
  ds.foldl (fun a d => a * 10 + (d - 48)) 0

/-- C `atoi` over a byte list: skip leading whitespace, accept an
optional sign, then read leading decimal digits; parsing stops at the
first non-digit, in particular at a NUL byte. The C call reads the
10-cell array, so the list handed over is `arrToList`; an array with no
NUL terminator is cut at the end of the array (the C code would read
past the buffer there, which no verified claim exercises). -/
def atoiList (l : List Nat) : Int :=
  match l.dropWhile isSpaceB with
  | [] => 0
  | b :: r =>
    if b = 43 then (digitsVal (r.takeWhile isDigitB) : Int)
    else if b = 45 then -(digitsVal (r.takeWhile isDigitB) : Int)
    else (digitsVal ((b :: r).takeWhile isDigitB) : Int)

/-- `atoi(c)` on the scratch array. -/
def atoiC (a : CArr) : Int := atoiList (arrToList a)

/-! ## The RX demultiplexer `rxThread`

The worker is a loop of blocking one-byte reads.  It is embedded as a
Mealy-style step machine: the phase records which read of the source
loop comes next, and each consumed byte yields the bytes the source
pushes into the control queue and the data queue at that point.

Phases, against the source of `rxThread`:
* `scan` — top of the outer `while` loop, about to read `c[0]`;
* `m1`..`m4` — matched `"+"`, `"+I"`, `"+IP"`, `"+IPD"`, about to read
  `c[1]`..`c[4]`;
* `len idx` — inside the `while(index < 9)` digit loop, about to read
  into `c[9]`;
* `dat n` — inside the relay `for` loop with `data_lenght = n > 0`,
  about to read a payload byte into `c[0]`.
-/

/-- Read position of `rxThread`'s loop between two byte reads. -/
inductive RxPhase where
  | scan : RxPhase
  | m1 : RxPhase
  | m2 : RxPhase
  | m3 : RxPhase
  | m4 : RxPhase
  | len : Nat → RxPhase
  | dat : Nat → RxPhase

/-- State of the `rxThread` worker: read position plus the scratch
array. -/
structure RxState where
  phase : RxPhase
  arr : CArr

/-- `send_to_controlQ(n, c)`: push `c[0] .. c[n-1]`, one byte at a
time, into the control queue. -/
def send_to_controlQ (n : Nat) (a : CArr) : List Nat :=
  (List.range n).map (cget a)

/-- Leaving the digit loop: `data_lenght = atoi(c)` followed by the
relay `for` loop guard.  A non-positive parsed length skips the relay
loop and returns to the outer scan loop. -/
def enterData (a : CArr) : RxState :=
  if (atoiC a).toNat = 0 then ⟨RxPhase.scan, a⟩
  else ⟨RxPhase.dat (atoiC a).toNat, a⟩

/-- One byte read of `rxThread`: from state `st`, consuming byte `b`,
produce the next state and the bytes pushed to (control queue, data
queue).  Mirrors the nested reads of the source loop. -/
def rxStep (st : RxState) (b : Nat) : RxState × List Nat × List Nat :=
  match st.phase with
  | RxPhase.scan =>
    let a := cset st.arr 0 b
    if b = 43 then (⟨RxPhase.m1, a⟩, [], [])
    else (⟨RxPhase.scan, a⟩, [cget a 0], [])
  | RxPhase.m1 =>
    let a := cset st.arr 1 b
    if b = 73 then (⟨RxPhase.m2, a⟩, [], [])
    else (⟨RxPhase.scan, a⟩, send_to_controlQ 2 a, [])
  | RxPhase.m2 =>
    let a := cset st.arr 2 b
    if b = 80 then (⟨RxPhase.m3, a⟩, [], [])
    else (⟨RxPhase.scan, a⟩, send_to_controlQ 3 a, [])
  | RxPhase.m3 =>
    let a := cset st.arr 3 b
    if b = 68 then (⟨RxPhase.m4, a⟩, [], [])
    else (⟨RxPhase.scan, a⟩, send_to_controlQ 4 a, [])
  | RxPhase.m4 =>
    let a := cset st.arr 4 b
    if b = 44 then (⟨RxPhase.len 0, cset a 9 0⟩, [], [])
    else (⟨RxPhase.scan, a⟩, send_to_controlQ 5 a, [])
  | RxPhase.len idx =>
    let a := cset st.arr 9 b
    if b = 58 then (enterData (cset a (idx + 1) 0), [], [])
    else
      let a2 := cset a idx b
      if idx + 1 < 9 then (⟨RxPhase.len (idx + 1), a2⟩, [], [])
      else (enterData a2, [], [])
  | RxPhase.dat n =>
    let a := cset st.arr 0 b
    if n ≤ 1 then (⟨RxPhase.scan, a⟩, [], [cget a 0])
    else (⟨RxPhase.dat (n - 1), a⟩, [], [cget a 0])

/-- Run `rxThread` over a finite byte stream: final state and the full
(control queue, data queue) contents produced.  A stream ending inside
a multi-byte read sequence leaves the worker blocked holding the
partial state, exactly as the source thread would block on
`xSerialGetChar`. -/
def rxRun : RxState → List Nat → RxState × List Nat × List Nat
  | st, [] => (st, [], [])
  | st, b :: rest =>
    let r1 := rxStep st b
    let r2 := rxRun r1.1 rest
    (r2.1, r1.2.1 ++ r2.2.1, r1.2.2 ++ r2.2.2)

/-- The `"+IPD,"` notification marker bytes. -/
def MARKER : List Nat := [43, 73, 80, 68, 44]

/-- Queue contents after `rxThread` consumes a byte stream, starting at
the top of its outer loop with scratch array `a`:
(control queue, data queue). -/
def demux (a : CArr) (s : List Nat) : List Nat × List Nat :=
  ((rxRun ⟨RxPhase.scan, a⟩ s).2.1, (rxRun ⟨RxPhase.scan, a⟩ s).2.2)

/-! ## The send chunker `esp8266AT_send`

The caller's buffer is a byte list.  The source loop runs
`while (bytesToSend / 2048)`, sending one full 2048-byte round per
iteration — `bytesToSend / 2048` iterations in total — and then always
emits one final round for the remainder (`snprintf` rewrites the byte
count inside `"AT+CIPSEND=2048"`).  Each round is the command text
followed by CR LF, then the streamed payload slice; between rounds the
control queue is drained and discarded, which has no observable effect
modelled here. -/

/-- ASCII decimal text of a byte count, as `snprintf("%d", n)` writes
it. -/
def natDecimal (n : Nat) : List Nat := (Nat.toDigits 10 n).map Char.toNat

/-- The bytes of the literal command text `"AT+CIPSEND="`. -/
def AT_CIPSEND : List Nat := [65, 84, 43, 67, 73, 80, 83, 69, 78, 68, 61]

/-- One emitted send command: `"AT+CIPSEND=<n>"` followed by CR LF. -/
def roundCmd (n : Nat) : List Nat := AT_CIPSEND ++ natDecimal n ++ [13, 10]

/-- One command round of `esp8266AT_send`: the command bytes written to
the serial link, then the payload bytes streamed after the settle
delay. -/
structure SendRound where
  cmd : List Nat
  payload : List Nat
deriving DecidableEq

/-- The rounds and the accumulated `bytes_sent` of `esp8266AT_send`,
indexed by the number `k` of iterations of the `while (bytesToSend /
2048)` loop still to run (the loop body subtracts exactly 2048 per
iteration, so `k` is `bytesToSend / 2048`); after the loop the final
remainder round is always emitted. -/
def sendF : Nat → List Nat → List SendRound × Nat
  | 0, buf => ([⟨roundCmd buf.length, buf⟩], buf.length)
  | k + 1, buf =>
    let r := sendF k (buf.drop 2048)
    (⟨roundCmd 2048, buf.take 2048⟩ :: r.1, 2048 + r.2)

/-- `esp8266AT_send(_, buf, buf.length)`: the list of command rounds
emitted on the serial link and the returned `bytes_sent`. -/
def esp8266AT_send (buf : List Nat) : List SendRound × Nat :=
  sendF (buf.length / 2048) buf

/-! ## The receive adapter `esp8266AT_recv`

`mq_receive` on the non-blocking data queue either pops the front byte
or fails immediately; the loop stops after `bytesToRecv` copies or on
the first failure.  The model takes the data-queue contents and the
requested capacity and returns (bytes copied to the caller's buffer,
remaining data queue); the source's return value is the length of the
first component. -/

def esp8266AT_recv : List Nat → Nat → List Nat × List Nat
  | q, 0 => ([], q)
  | [], _ + 1 => ([], [])
  | b :: q, n + 1 =>
    let r := esp8266AT_recv q n
    (b :: r.1, r.2)

/-! ## The connection state machine `esp8266AT_Connect`

States use the numeric values of `enum transportStatus`.  The model
takes the six handshake reply bytes that `check_AT` reads from the
control queue and the first byte `start_TCP` reads after the TCP-open
command, and returns the final `esp8266_status`, the returned transport
status, and the list of initialization/exchange stages executed.
`mq_open` and `pthread_create` are assumed to succeed. -/

def AT_UNINITIALIZED : Nat := 0
def MQUEUE_UNINITIALIZED : Nat := 1
def RX_THREAD_UNINITIALIZED : Nat := 2
def AT_READY : Nat := 3
def CONNECTED : Nat := 4
def ERROR : Nat := 5

/-- Result values of `esp8266TransportStatus_t`. -/
inductive EspResult where
  | success : EspResult
  | invalid_parameter : EspResult
  | connect_failure : EspResult
deriving DecidableEq

/-- Observable stages performed by a `Connect` call. -/
inductive ConnAct where
  | initSerial : ConnAct
  | createQueues : ConnAct
  | startThread : ConnAct
  | handshake : ConnAct
  | tcpOpen : ConnAct
deriving DecidableEq

/-- Bytes of the literal `"\r\nOK\r\n"` that `check_AT` compares the
reply against. -/
def CHECK_OK : List Nat := [13, 10, 79, 75, 13, 10]

/-- A byte buffer read as a C string: the bytes before the first NUL. -/
def cstring (l : List Nat) : List Nat := l.takeWhile (fun b => b != 0)

/-- `check_AT`, given the six reply bytes it reads from the control
queue: the reply buffer is seven bytes, NUL initialised, of which the
first six are overwritten; `strcmp` against `"\r\nOK\r\n"` compares the
C strings.  Returns the new `esp8266_status`. -/
def check_AT (reply : List Nat) : Nat :=
  if cstring (reply ++ [0]) = CHECK_OK then AT_READY else ERROR

/-- `start_TCP`, given the first byte read from the control queue after
the `AT+CIPSTART` command: `'C'` (67) means the open succeeded.
Returns the new `esp8266_status`. -/
def start_TCP (first : Nat) : Nat :=
  if first ≠ 67 then ERROR else CONNECTED

/-- `esp8266AT_Connect`, from status `st`, with `atReply` the handshake
reply bytes and `tcpFirst` the TCP-open status byte.  Produces the
final status, the return value, and the stages executed in order. -/
def esp8266AT_Connect (st : Nat) (atReply : List Nat) (tcpFirst : Nat) :
    Nat × EspResult × List ConnAct :=
  if st = CONNECTED then (st, EspResult.success, [])
  else
    let s1 := if st = AT_UNINITIALIZED then MQUEUE_UNINITIALIZED else st
    let a1 : List ConnAct := if st = AT_UNINITIALIZED then [ConnAct.initSerial] else []
    let s2 := if s1 = MQUEUE_UNINITIALIZED then RX_THREAD_UNINITIALIZED else s1
    let a2 := if s1 = MQUEUE_UNINITIALIZED then a1 ++ [ConnAct.createQueues] else a1
    let s3 := if s2 = RX_THREAD_UNINITIALIZED then AT_READY else s2
    let a3 := if s2 = RX_THREAD_UNINITIALIZED then a2 ++ [ConnAct.startThread] else a2
    if RX_THREAD_UNINITIALIZED < s3 then
      let s4 := check_AT atReply
      let a4 := a3 ++ [ConnAct.handshake]
      if s4 = ERROR then (s4, EspResult.connect_failure, a4)
      else
        let s5 := start_TCP tcpFirst
        let a5 := a4 ++ [ConnAct.tcpOpen]
        if s5 = ERROR then (s5, EspResult.connect_failure, a5)
        else (s5, EspResult.success, a5)
    else (s3, EspResult.connect_failure, a3)

/-! ## The serial link buffers (`serial.cpp`)

Both buffers are byte FIFOs of the capacity fixed by
`xSerialPortInitMinimal` (pop shifts the array down, so a buffer is a
plain list popped at the head and appended at the tail).  The public
accessors and the two pump workers are each one guarded mutation; the
interleaving of the threads is modelled as an arbitrary sequence of
these four operations. -/

/-- The two serial-link buffers. -/
structure SerialState where
  rxBuf : List Nat
  txBuf : List Nat
deriving DecidableEq

/-- `xSerialPutChar`: append to the transmit buffer if below capacity
and return 1, else reject with 0 leaving the buffer unchanged. -/
def xSerialPutChar (cap : Nat) (st : SerialState) (b : Nat) : SerialState × Nat :=
  if st.txBuf.length < cap then ({ st with txBuf := st.txBuf ++ [b] }, 1)
  else (st, 0)

/-- `xSerialGetChar`: pop the oldest received byte if any (shift-down
pop of `rxBuffer`), else report none. -/
def xSerialGetChar (st : SerialState) : SerialState × Option Nat :=
  match st.rxBuf with
  | [] => (st, none)
  | b :: rest => ({ st with rxBuf := rest }, some b)

/-- One iteration of the serial receive worker after it read byte `b`
from the device: append to the receive buffer if below capacity,
otherwise sleep and retry later — the buffer is left unchanged and the
byte is not dropped (the worker still holds it). -/
def rxPumpPut (cap : Nat) (st : SerialState) (b : Nat) : SerialState :=
  if st.rxBuf.length < cap then { st with rxBuf := st.rxBuf ++ [b] } else st

/-- One iteration of the serial transmit worker: pop the oldest byte of
the transmit buffer for the device write, if any. -/
def txPumpPop (st : SerialState) : SerialState × Option Nat :=
  match st.txBuf with
  | [] => (st, none)
  | b :: rest => ({ st with txBuf := rest }, some b)

/-- One buffer operation by any of the threads sharing the serial
link. -/
inductive SerialOp where
  | put : Nat → SerialOp
  | get : SerialOp
  | devRx : Nat → SerialOp
  | devTx : SerialOp

/-- Effect of one operation on the buffers. -/
def serialStep (cap : Nat) (st : SerialState) : SerialOp → SerialState
  | SerialOp.put b => (xSerialPutChar cap st b).1
  | SerialOp.get => (xSerialGetChar st).1
  | SerialOp.devRx b => rxPumpPut cap st b
  | SerialOp.devTx => (txPumpPop st).1

/-- Buffer state after an arbitrary interleaving of serial-link
operations, starting from the empty buffers allocated by
`xSerialPortInitMinimal`. -/
def serialRun (cap : Nat) (ops : List SerialOp) : SerialState :=
  ops.foldl (serialStep cap) ⟨[], []⟩

/-! ## Basic facts about the RX demultiplexer run -/

/-- One-step unfolding of the run. -/
theorem rxRun_cons (st : RxState) (b : Nat) (rest : List Nat) :
    rxRun st (b :: rest) =
      ((rxRun (rxStep st b).1 rest).1,
       (rxStep st b).2.1 ++ (rxRun (rxStep st b).1 rest).2.1,
       (rxStep st b).2.2 ++ (rxRun (rxStep st b).1 rest).2.2) := rfl

/-- Running over a concatenation: run the first part, then run the
second from the reached state; both queues concatenate. -/
theorem rxRun_append (s1 s2 : List Nat) (st : RxState) :
    rxRun st (s1 ++ s2) =
      ((rxRun (rxRun st s1).1 s2).1,
       (rxRun st s1).2.1 ++ (rxRun (rxRun st s1).1 s2).2.1,
       (rxRun st s1).2.2 ++ (rxRun (rxRun st s1).1 s2).2.2) := by
  induction s1 generalizing st with
  | nil => simp [rxRun]
  | cons b t ih => simp [rxRun, ih, List.append_assoc]

/-- A mismatching byte at the second marker position: the two consumed
bytes go to the control queue and scanning resumes at the next unread
byte. -/
theorem rxRun_mm1 (a : CArr) (b : Nat) (s : List Nat) (hb : b ≠ 73) :
    rxRun ⟨RxPhase.scan, a⟩ (43 :: b :: s) =
      ((rxRun ⟨RxPhase.scan, cset (cset a 0 43) 1 b⟩ s).1,
       43 :: b :: (rxRun ⟨RxPhase.scan, cset (cset a 0 43) 1 b⟩ s).2.1,
       (rxRun ⟨RxPhase.scan, cset (cset a 0 43) 1 b⟩ s).2.2) := by
  simp [rxRun, rxStep, hb, send_to_controlQ, List.range_succ, cget, cset]

/-- A mismatching byte at the third marker position (`"+I"` then a
byte other than `'P'`): the three consumed bytes are flushed to the
control queue and scanning resumes at the next unread byte. -/
theorem rxRun_mm2 (a : CArr) (b : Nat) (s : List Nat) (hb : b ≠ 80) :
    rxRun ⟨RxPhase.scan, a⟩ (43 :: 73 :: b :: s) =
      ((rxRun ⟨RxPhase.scan, cset (cset (cset a 0 43) 1 73) 2 b⟩ s).1,
       43 :: 73 :: b :: (rxRun ⟨RxPhase.scan, cset (cset (cset a 0 43) 1 73) 2 b⟩ s).2.1,
       (rxRun ⟨RxPhase.scan, cset (cset (cset a 0 43) 1 73) 2 b⟩ s).2.2) := by
  simp [rxRun, rxStep, hb, send_to_controlQ, List.range_succ, cget, cset]

/-- A mismatching byte at the fourth marker position. -/
theorem rxRun_mm3 (a : CArr) (b : Nat) (s : List Nat) (hb : b ≠ 68) :
    rxRun ⟨RxPhase.scan, a⟩ (43 :: 73 :: 80 :: b :: s) =
      ((rxRun ⟨RxPhase.scan, cset (cset (cset (cset a 0 43) 1 73) 2 80) 3 b⟩ s).1,
       43 :: 73 :: 80 :: b ::
         (rxRun ⟨RxPhase.scan, cset (cset (cset (cset a 0 43) 1 73) 2 80) 3 b⟩ s).2.1,
       (rxRun ⟨RxPhase.scan, cset (cset (cset (cset a 0 43) 1 73) 2 80) 3 b⟩ s).2.2) := by
  simp [rxRun, rxStep, hb, send_to_controlQ, List.range_succ, cget, cset]

/-- A mismatching byte at the separator position (`"+IPD"` then a byte
other than `','`). -/
theorem rxRun_mm4 (a : CArr) (b : Nat) (s : List Nat) (hb : b ≠ 44) :
    rxRun ⟨RxPhase.scan, a⟩ (43 :: 73 :: 80 :: 68 :: b :: s) =
      ((rxRun ⟨RxPhase.scan, cset (cset (cset (cset (cset a 0 43) 1 73) 2 80) 3 68) 4 b⟩ s).1,
       43 :: 73 :: 80 :: 68 :: b ::
         (rxRun ⟨RxPhase.scan,
            cset (cset (cset (cset (cset a 0 43) 1 73) 2 80) 3 68) 4 b⟩ s).2.1,
       (rxRun ⟨RxPhase.scan,
          cset (cset (cset (cset (cset a 0 43) 1 73) 2 80) 3 68) 4 b⟩ s).2.2) := by
  simp [rxRun, rxStep, hb, send_to_controlQ, List.range_succ, cget, cset]

/-- A stream without the marker's first byte passes through to the
control queue unchanged and in order; the worker ends back at the top
of its scan loop. -/
theorem rxRun_noplus (s : List Nat) (a : CArr) (h : ∀ b ∈ s, b ≠ 43) :
    ∃ a2, rxRun ⟨RxPhase.scan, a⟩ s = (⟨RxPhase.scan, a2⟩, s, []) := by
  induction s generalizing a with
  | nil => exact ⟨a, rfl⟩
  | cons b t ih =>
    have hb : b ≠ 43 := h b (List.mem_cons_self b t)
    obtain ⟨a2, ha2⟩ := ih (cset a 0 b) (fun x hx => h x (List.mem_cons_of_mem b hx))
    refine ⟨a2, ?_⟩
    simp [rxRun, rxStep, hb, ha2, cget, cset]

/-- The scratch array right after the full `"+IPD,"` match, before the
digit loop: the five marker bytes written into cells 0..4 and the
`c[9] = 0` initialisation. -/
def markerArr (a : CArr) : CArr :=
  cset (cset (cset (cset (cset (cset a 0 43) 1 73) 2 80) 3 68) 4 44) 9 0

/-- Consuming the full marker from scan position reaches the digit loop
with nothing queued. -/
theorem rxRun_marker (a : CArr) (s : List Nat) :
    rxRun ⟨RxPhase.scan, a⟩ (MARKER ++ s) = rxRun ⟨RxPhase.len 0, markerArr a⟩ s := by
  simp [MARKER, rxRun, rxStep, markerArr]

/-- Cell writes performed by the digit loop for a run of non-colon
bytes: each byte lands in `c[9]` and then in the current cell. -/
def writeDigits : CArr → Nat → List Nat → CArr
  | a, _, [] => a
  | a, i, d :: ds => writeDigits (cset (cset a 9 d) i d) (i + 1) ds

/-- The digit loop consumes decimal digits up to the colon and falls
through to `atoi` and the relay loop, queueing nothing itself. -/
theorem rxRun_len_digits (ds : List Nat) (a : CArr) (idx : Nat) (rest : List Nat)
    (hd : ∀ d ∈ ds, 48 ≤ d ∧ d ≤ 57) (hlen : idx + ds.length ≤ 8) :
    rxRun ⟨RxPhase.len idx, a⟩ (ds ++ 58 :: rest) =
      rxRun (enterData (cset (cset (writeDigits a idx ds) 9 58) (idx + ds.length + 1) 0))
        rest := by
  induction ds generalizing a idx with
  | nil => simp [rxRun, rxStep, writeDigits]
  | cons d t ih =>
    have hdd := hd d (List.mem_cons_self d t)
    have h58 : d ≠ 58 := by omega
    have hlt : idx + 1 < 9 := by
      simp only [List.length_cons] at hlen
      omega
    have harith : idx + 1 + t.length + 1 = idx + (t.length + 1) + 1 := by omega
    have ht : ∀ x ∈ t, 48 ≤ x ∧ x ≤ 57 := fun x hx => hd x (List.mem_cons_of_mem d hx)
    have hlen2 : idx + 1 + t.length ≤ 8 := by
      simp only [List.length_cons] at hlen
      omega
    simp only [List.cons_append, rxRun, rxStep, h58, hlt, if_true, if_false, ite_true,
      ite_false, List.nil_append, List.append_eq, List.length_cons, writeDigits]
    rw [ih (cset (cset a 9 d) idx d) (idx + 1) ht hlen2, harith]

/-- After a length field of one to four digits, `atoi` on the scratch
array yields exactly the value of those digits: the cell after the
stored digits still holds a marker byte, which is not a digit, so the
stale cells 5..8 are never reached. -/
theorem atoiC_digits (c : CArr) (ds : List Nat)
    (hd : ∀ d ∈ ds, 48 ≤ d ∧ d ≤ 57) (h1 : 1 ≤ ds.length) (h4 : ds.length ≤ 4) :
    atoiC (cset (cset (writeDigits (markerArr c) 0 ds) 9 58) (ds.length + 1) 0)
      = (digitsVal ds : Int) := by
  match ds with
  | [] => simp at h1
  | d0 :: d1 :: d2 :: d3 :: d4 :: t => simp at h4
  | [d0] =>
    have hb0 := hd d0 (by simp)
    have harr : arrToList (cset (cset (writeDigits (markerArr c) 0 [d0]) 9 58)
        ([d0].length + 1) 0)
        = [d0, 73, 0, 68, 44, cget c 5, cget c 6, cget c 7, cget c 8, 58] := by
      simp [arrToList, writeDigits, markerArr, cget, cset]
    have hs : isSpaceB d0 = false := by simp [isSpaceB]; omega
    have h43 : d0 ≠ 43 := by omega
    have h45 : d0 ≠ 45 := by omega
    rw [atoiC, harr]
    simp [atoiList, List.dropWhile_cons, List.takeWhile_cons, hs, h43, h45, isDigitB,
      hb0.1, hb0.2]
  | [d0, d1] =>
    have hb0 := hd d0 (by simp)
    have hb1 := hd d1 (by simp)
    have harr : arrToList (cset (cset (writeDigits (markerArr c) 0 [d0, d1]) 9 58)
        ([d0, d1].length + 1) 0)
        = [d0, d1, 80, 0, 44, cget c 5, cget c 6, cget c 7, cget c 8, 58] := by
      simp [arrToList, writeDigits, markerArr, cget, cset]
    have hs : isSpaceB d0 = false := by simp [isSpaceB]; omega
    have h43 : d0 ≠ 43 := by omega
    have h45 : d0 ≠ 45 := by omega
    rw [atoiC, harr]
    simp [atoiList, List.dropWhile_cons, List.takeWhile_cons, hs, h43, h45, isDigitB,
      hb0.1, hb0.2, hb1.1, hb1.2]
  | [d0, d1, d2] =>
    have hb0 := hd d0 (by simp)
    have hb1 := hd d1 (by simp)
    have hb2 := hd d2 (by simp)
    have harr : arrToList (cset (cset (writeDigits (markerArr c) 0 [d0, d1, d2]) 9 58)
        ([d0, d1, d2].length + 1) 0)
        = [d0, d1, d2, 68, 0, cget c 5, cget c 6, cget c 7, cget c 8, 58] := by
      simp [arrToList, writeDigits, markerArr, cget, cset]
    have hs : isSpaceB d0 = false := by simp [isSpaceB]; omega
    have h43 : d0 ≠ 43 := by omega
    have h45 : d0 ≠ 45 := by omega
    rw [atoiC, harr]
    simp [atoiList, List.dropWhile_cons, List.takeWhile_cons, hs, h43, h45, isDigitB,
      hb0.1, hb0.2, hb1.1, hb1.2, hb2.1, hb2.2]
  | [d0, d1, d2, d3] =>
    have hb0 := hd d0 (by simp)
    have hb1 := hd d1 (by simp)
    have hb2 := hd d2 (by simp)
    have hb3 := hd d3 (by simp)
    have harr : arrToList (cset (cset (writeDigits (markerArr c) 0 [d0, d1, d2, d3]) 9 58)
        ([d0, d1, d2, d3].length + 1) 0)
        = [d0, d1, d2, d3, 44, 0, cget c 6, cget c 7, cget c 8, 58] := by
      simp [arrToList, writeDigits, markerArr, cget, cset]
    have hs : isSpaceB d0 = false := by simp [isSpaceB]; omega
    have h43 : d0 ≠ 43 := by omega
    have h45 : d0 ≠ 45 := by omega
    rw [atoiC, harr]
    simp [atoiList, List.dropWhile_cons, List.takeWhile_cons, hs, h43, h45, isDigitB,
      hb0.1, hb0.2, hb1.1, hb1.2, hb2.1, hb2.2, hb3.1, hb3.2]

/-- The relay loop pushes exactly the declared number of payload bytes,
in order, into the data queue and returns to the scan loop. -/
theorem rxRun_dat (payload : List Nat) (a : CArr) (n : Nat) (rest : List Nat)
    (hn : payload.length = n) (h1 : 1 ≤ n) :
    ∃ a2, rxRun ⟨RxPhase.dat n, a⟩ (payload ++ rest) =
      ((rxRun ⟨RxPhase.scan, a2⟩ rest).1,
       (rxRun ⟨RxPhase.scan, a2⟩ rest).2.1,
       payload ++ (rxRun ⟨RxPhase.scan, a2⟩ rest).2.2) := by
  induction payload generalizing a n with
  | nil =>
    simp at hn
    omega
  | cons b t ih =>
    match t with
    | [] =>
      have hn1 : n = 1 := by simpa using hn.symm
      subst hn1
      refine ⟨cset a 0 b, ?_⟩
      simp [rxRun, rxStep, cget, cset]
    | c :: t2 =>
      have hn2 : (c :: t2).length = n - 1 := by
        simp only [List.length_cons] at hn ⊢
        omega
      have hgt : ¬ n ≤ 1 := by
        simp only [List.length_cons] at hn
        omega
      obtain ⟨a2, ha2⟩ := ih (cset a 0 b) (n - 1) hn2 (by omega)
      refine ⟨a2, ?_⟩
      rw [List.cons_append, rxRun_cons]
      simp only [rxStep, hgt, if_false, ite_false]
      rw [ha2]
      simp [cget, cset]

/-- A full notification frame with a 1–4 digit length field: the
marker, digits and colon queue nothing, exactly the declared payload
bytes go to the data queue in order, and the worker resumes scanning
after the payload. -/
theorem rxRun_frame (a : CArr) (ds payload rest : List Nat)
    (hd : ∀ d ∈ ds, 48 ≤ d ∧ d ≤ 57) (h1 : 1 ≤ ds.length) (h4 : ds.length ≤ 4)
    (hpay : payload.length = digitsVal ds) :
    ∃ a2, rxRun ⟨RxPhase.scan, a⟩ ((MARKER ++ ds ++ 58 :: payload) ++ rest) =
      ((rxRun ⟨RxPhase.scan, a2⟩ rest).1,
       (rxRun ⟨RxPhase.scan, a2⟩ rest).2.1,
       payload ++ (rxRun ⟨RxPhase.scan, a2⟩ rest).2.2) := by
  have hsh : (MARKER ++ ds ++ 58 :: payload) ++ rest
      = MARKER ++ (ds ++ 58 :: (payload ++ rest)) := by simp
  rw [hsh, rxRun_marker,
    rxRun_len_digits ds (markerArr a) 0 (payload ++ rest) hd (by omega)]
  have hz : (0 : Nat) + ds.length + 1 = ds.length + 1 := by omega
  rw [hz]
  have hat := atoiC_digits a ds hd h1 h4
  by_cases h0 : digitsVal ds = 0
  · have hpnil : payload = [] := by
      rw [← List.length_eq_zero]
      omega
    subst hpnil
    refine ⟨cset (cset (writeDigits (markerArr a) 0 ds) 9 58) (ds.length + 1) 0, ?_⟩
    simp [enterData, hat, h0]
  · have henter : enterData (cset (cset (writeDigits (markerArr a) 0 ds) 9 58)
        (ds.length + 1) 0)
        = ⟨RxPhase.dat (digitsVal ds),
           cset (cset (writeDigits (markerArr a) 0 ds) 9 58) (ds.length + 1) 0⟩ := by
      simp [enterData, hat, h0]
    rw [henter]
    exact rxRun_dat payload _ (digitsVal ds) rest hpay (by omega)

/-! ## Claims about the RX demultiplexer -/

/-- C1 (amended): a stream carrying one well-formed `"+IPD,<n>:"`
frame with a 1–4 digit length field and its `n` payload bytes, where
the surrounding bytes contain no `'+'`, is demultiplexed with exactly
the payload in the data queue, in order, and exactly the surrounding
bytes in the control queue, in order. -/
theorem claim_C1_ipd_routing (a : CArr) (pre ds payload post : List Nat)
    (hpre : ∀ b ∈ pre, b ≠ 43) (hpost : ∀ b ∈ post, b ≠ 43)
    (hd : ∀ d ∈ ds, 48 ≤ d ∧ d ≤ 57) (h1 : 1 ≤ ds.length) (h4 : ds.length ≤ 4)
    (hpay : payload.length = digitsVal ds) :
    demux a (pre ++ (MARKER ++ ds ++ 58 :: payload) ++ post) = (pre ++ post, payload) := by
  obtain ⟨a1, h1run⟩ := rxRun_noplus pre a hpre
  obtain ⟨a2, h2run⟩ := rxRun_frame a1 ds payload post hd h1 h4 hpay
  obtain ⟨a3, h3run⟩ := rxRun_noplus post a2 hpost
  unfold demux
  rw [List.append_assoc, rxRun_append, h1run, h2run, h3run]
  simp

/-- Witness for C1 at the concrete stream `"A" "+IPD,1:" "M" "B"`. -/
theorem claim_C1_ipd_routing_witness :
    (∀ b ∈ [65], b ≠ 43) ∧ (∀ b ∈ ([66] : List Nat), b ≠ 43) ∧
    (∀ d ∈ [49], 48 ≤ d ∧ d ≤ 57) ∧ ([77] : List Nat).length = digitsVal [49] ∧
    demux zeroArr ([65] ++ (MARKER ++ [49] ++ 58 :: [77]) ++ [66]) = ([65, 66], [77]) :=
  ⟨by decide, by decide, by decide, by decide,
   claim_C1_ipd_routing zeroArr [65] [49] [77] [66]
     (by decide) (by decide) (by decide) (by decide) (by decide) (by decide)⟩

/-- Counterexample to C1 as stated: the stream `"A++IPD,1:B"` contains
the well-formed frame `"+IPD,1:"` followed by its one payload byte,
but every byte lands in the control queue and the data queue stays
empty — the leading `'+'` of the surroundings starts a match attempt
that consumes the frame's first byte. -/
theorem claim_C1_cex :
    demux zeroArr [65, 43, 43, 73, 80, 68, 44, 49, 58, 66] =
      ([65, 43, 43, 73, 80, 68, 44, 49, 58, 66], []) ∧
    (demux zeroArr [65, 43, 43, 73, 80, 68, 44, 49, 58, 66]).2 ≠ [66] := by
  constructor
  · decide
  · decide

/-- C3 (amended): on the first mismatch at any position of a marker
match attempt, the consumed marker-prefix bytes and the mismatching
byte itself are flushed, in order, into the control queue, and the
worker resumes scanning at the next unread byte (not at the mismatch
byte). -/
theorem claim_C3_mismatch_flush_resume (a : CArr) (j b : Nat) (s : List Nat)
    (hj1 : 1 ≤ j) (hj4 : j ≤ 4) (hb : b ≠ MARKER.getD j 0) :
    ∃ a2, demux a (MARKER.take j ++ b :: s) =
      (MARKER.take j ++ b :: (demux a2 s).1, (demux a2 s).2) := by
  unfold demux
  interval_cases j
  · refine ⟨cset (cset a 0 43) 1 b, ?_⟩
    have hb1 : b ≠ 73 := by simpa [MARKER] using hb
    simp [MARKER, rxRun_mm1 a b s hb1]
  · refine ⟨cset (cset (cset a 0 43) 1 73) 2 b, ?_⟩
    have hb2 : b ≠ 80 := by simpa [MARKER] using hb
    simp [MARKER, rxRun_mm2 a b s hb2]
  · refine ⟨cset (cset (cset (cset a 0 43) 1 73) 2 80) 3 b, ?_⟩
    have hb3 : b ≠ 68 := by simpa [MARKER] using hb
    simp [MARKER, rxRun_mm3 a b s hb3]
  · refine ⟨cset (cset (cset (cset (cset a 0 43) 1 73) 2 80) 3 68) 4 b, ?_⟩
    have hb4 : b ≠ 44 := by simpa [MARKER] using hb
    simp [MARKER, rxRun_mm4 a b s hb4]

/-- Witness for C3 at the mismatch `"+I"` then `'Q'`. -/
theorem claim_C3_mismatch_flush_resume_witness :
    (1 ≤ 2) ∧ (2 ≤ 4) ∧ (81 ≠ MARKER.getD 2 0) ∧
    ∃ a2, demux zeroArr (MARKER.take 2 ++ 81 :: [90]) =
      (MARKER.take 2 ++ 81 :: (demux a2 [90]).1, (demux a2 [90]).2) :=
  ⟨by decide, by decide, by decide,
   claim_C3_mismatch_flush_resume zeroArr 2 81 [90] (by decide) (by decide) (by decide)⟩

/-- Counterexample to C3 as stated: for the stream `"++IPD,1:A"` the
claimed resumption from the mismatch byte would recognize the complete
marker starting at the second `'+'` and route the payload `'A'` to the
data queue; the code instead flushes the mismatch byte together with
the prefix, so everything goes to the control queue. -/
theorem claim_C3_cex :
    demux zeroArr [43, 43, 73, 80, 68, 44, 49, 58, 65] =
      ([43, 43, 73, 80, 68, 44, 49, 58, 65], []) ∧
    (demux zeroArr [43, 43, 73, 80, 68, 44, 49, 58, 65]).2 ≠ [65] := by
  constructor
  · decide
  · decide

/-- A failed match attempt at any position, at the run level: the
marker prefix and the mismatching byte are flushed to the control
queue in order and the worker scans on from the next byte. -/
theorem rxRun_mismatch_flush (a : CArr) (j b : Nat) (s : List Nat)
    (hj1 : 1 ≤ j) (hj4 : j ≤ 4) (hb : b ≠ MARKER.getD j 0) :
    ∃ a2, rxRun ⟨RxPhase.scan, a⟩ (MARKER.take j ++ b :: s) =
      ((rxRun ⟨RxPhase.scan, a2⟩ s).1,
       MARKER.take j ++ b :: (rxRun ⟨RxPhase.scan, a2⟩ s).2.1,
       (rxRun ⟨RxPhase.scan, a2⟩ s).2.2) := by
  interval_cases j
  · refine ⟨cset (cset a 0 43) 1 b, ?_⟩
    have hb1 : b ≠ 73 := by simpa [MARKER] using hb
    simp [MARKER, rxRun_mm1 a b s hb1]
  · refine ⟨cset (cset (cset a 0 43) 1 73) 2 b, ?_⟩
    have hb2 : b ≠ 80 := by simpa [MARKER] using hb
    simp [MARKER, rxRun_mm2 a b s hb2]
  · refine ⟨cset (cset (cset (cset a 0 43) 1 73) 2 80) 3 b, ?_⟩
    have hb3 : b ≠ 68 := by simpa [MARKER] using hb
    simp [MARKER, rxRun_mm3 a b s hb3]
  · refine ⟨cset (cset (cset (cset (cset a 0 43) 1 73) 2 80) 3 68) 4 b, ?_⟩
    have hb4 : b ≠ 44 := by simpa [MARKER] using hb
    simp [MARKER, rxRun_mm4 a b s hb4]

/-- C4: a partial marker match — any proper prefix `"+"`, `"+I"`,
`"+IP"`, `"+IPD"` — followed by a non-matching byte (the spec's example
is `"+IQ"`), anywhere after marker-free bytes and before marker-free
bytes, delivers every consumed byte to the control queue unchanged and
in its original relative order, nothing lost or duplicated and nothing
in the data queue; and a stream without the marker's first byte passes
through to the control queue byte-for-byte. -/
theorem claim_C4_consumed_bytes_preserved :
    (∀ (a : CArr) (s : List Nat), (∀ x ∈ s, x ≠ 43) → demux a s = (s, [])) ∧
    (∀ (a : CArr) (pre : List Nat) (j b : Nat) (s : List Nat),
      (∀ x ∈ pre, x ≠ 43) → 1 ≤ j → j ≤ 4 → b ≠ MARKER.getD j 0 →
      (∀ x ∈ s, x ≠ 43) →
      demux a (pre ++ (MARKER.take j ++ b :: s))
        = (pre ++ (MARKER.take j ++ b :: s), [])) := by
  constructor
  · intro a s hs
    obtain ⟨a2, h⟩ := rxRun_noplus s a hs
    unfold demux
    rw [h]
  · intro a pre j b s hpre hj1 hj4 hb hs
    obtain ⟨a1, h1⟩ := rxRun_noplus pre a hpre
    obtain ⟨a2, h2⟩ := rxRun_mismatch_flush a1 j b s hj1 hj4 hb
    obtain ⟨a3, h3⟩ := rxRun_noplus s a2 hs
    unfold demux
    rw [rxRun_append, h1, h2, h3]
    simp

/-- Witness for C4 at the stream `"X+IPD?Y"`: a mismatch at the
separator position preceded and followed by ordinary bytes. -/
theorem claim_C4_consumed_bytes_preserved_witness :
    (∀ x ∈ ([88] : List Nat), x ≠ 43) ∧ (1 ≤ 4) ∧ (4 ≤ 4) ∧
    (63 ≠ MARKER.getD 4 0) ∧ (∀ x ∈ ([89] : List Nat), x ≠ 43) ∧
    demux zeroArr ([88] ++ (MARKER.take 4 ++ 63 :: [89]))
      = ([88] ++ (MARKER.take 4 ++ 63 :: [89]), []) :=
  ⟨by decide, by decide, by decide, by decide, by decide,
   claim_C4_consumed_bytes_preserved.2 zeroArr [88] 4 63 [89]
     (by decide) (by decide) (by decide) (by decide) (by decide)⟩

/-! ## Claims about the send chunker -/

/-- Shape of the rounds emitted by the send loop: when `k` is the
number of full-chunk loop iterations (`buf.length / 2048`), the rounds
are `k` full 2048-byte rounds followed by one remainder round; the
payload slices concatenate back to the buffer, and the returned
`bytes_sent` is the full buffer length. -/
theorem sendF_spec (k : Nat) : ∀ buf : List Nat, buf.length / 2048 = k →
    ((sendF k buf).1.map fun r => r.payload.length)
        = List.replicate k 2048 ++ [buf.length % 2048] ∧
    ((sendF k buf).1.map fun r => r.cmd)
        = List.replicate k (roundCmd 2048) ++ [roundCmd (buf.length % 2048)] ∧
    ((sendF k buf).1.map fun r => r.payload).flatten = buf ∧
    (sendF k buf).2 = buf.length := by
  induction k with
  | zero =>
    intro buf hk
    have hlt : buf.length < 2048 := by omega
    have hmod : buf.length % 2048 = buf.length := Nat.mod_eq_of_lt hlt
    simp [sendF, hmod]
  | succ k ih =>
    intro buf hk
    have hge : 2048 ≤ buf.length := by omega
    have hdk : (buf.drop 2048).length / 2048 = k := by
      simp only [List.length_drop]
      omega
    obtain ⟨hsz, hcmd, hjoin, hret⟩ := ih (buf.drop 2048) hdk
    have hmod : (buf.drop 2048).length % 2048 = buf.length % 2048 := by
      simp only [List.length_drop]
      omega
    have htake : (buf.take 2048).length = 2048 := by
      simp [List.length_take]
      omega
    refine ⟨?_, ?_, ?_, ?_⟩
    · simp only [sendF, List.map_cons, htake, List.replicate_succ, List.cons_append]
      rw [hsz, hmod]
    · simp only [sendF, List.map_cons, List.replicate_succ, List.cons_append]
      rw [hcmd, hmod]
    · simp only [sendF, List.map_cons, List.flatten_cons]
      rw [hjoin, List.take_append_drop]
    · simp only [sendF]
      rw [hret]
      simp only [List.length_drop]
      omega

/-- C2 (amended): a send of length `L > 2048` emits exactly
`⌊L/2048⌋ + 1` command rounds — `⌊L/2048⌋` full `"AT+CIPSEND=2048"`
rounds and one final `"AT+CIPSEND=<L mod 2048>"` round, which is a
zero-byte round when 2048 divides `L` — the streamed slices
concatenate to the caller's buffer, and the returned byte count equals
`L`. -/
theorem claim_C2_send_chunking (buf : List Nat) (hL : 2048 < buf.length) :
    (esp8266AT_send buf).1.length = buf.length / 2048 + 1 ∧
    ((esp8266AT_send buf).1.map fun r => r.payload.length)
      = List.replicate (buf.length / 2048) 2048 ++ [buf.length % 2048] ∧
    ((esp8266AT_send buf).1.map fun r => r.cmd)
      = List.replicate (buf.length / 2048) (roundCmd 2048)
          ++ [roundCmd (buf.length % 2048)] ∧
    ((esp8266AT_send buf).1.map fun r => r.payload).flatten = buf ∧
    (esp8266AT_send buf).2 = buf.length := by
  obtain ⟨hsz, hcmd, hjoin, hret⟩ := sendF_spec (buf.length / 2048) buf rfl
  refine ⟨?_, hsz, hcmd, hjoin, hret⟩
  have := congrArg List.length hsz
  simpa [esp8266AT_send] using this

/-- Witness for C2 at a 2049-byte buffer. -/
theorem claim_C2_send_chunking_witness :
    2048 < (List.replicate 2049 (7 : Nat)).length ∧
    ((esp8266AT_send (List.replicate 2049 (7 : Nat))).1.map fun r => r.payload.length)
      = List.replicate ((List.replicate 2049 (7 : Nat)).length / 2048) 2048
          ++ [(List.replicate 2049 (7 : Nat)).length % 2048] ∧
    (esp8266AT_send (List.replicate 2049 (7 : Nat))).2
      = (List.replicate 2049 (7 : Nat)).length :=
  ⟨by simp only [List.length_replicate]; omega,
   (claim_C2_send_chunking (List.replicate 2049 7)
     (by simp only [List.length_replicate]; omega)).2.1,
   (claim_C2_send_chunking (List.replicate 2049 7)
     (by simp only [List.length_replicate]; omega)).2.2.2.2⟩

/-- Counterexample to C2 as stated: a 4096-byte send emits three
rounds, sized 2048, 2048 and 0 — not `⌈4096/2048⌉ = 2` rounds with a
last round of 2048. -/
theorem claim_C2_cex :
    ((esp8266AT_send (List.replicate 4096 (0 : Nat))).1.map fun r => r.payload.length)
      = [2048, 2048, 0] ∧
    (esp8266AT_send (List.replicate 4096 (0 : Nat))).1.length ≠ 2 := by
  have h2 : (List.replicate 4096 (0 : Nat)).length / 2048 = 2 := by
    simp only [List.length_replicate]
  obtain ⟨hsz, -, -, -⟩ := sendF_spec 2 (List.replicate 4096 (0 : Nat)) h2
  have hsz2 : ((esp8266AT_send (List.replicate 4096 (0 : Nat))).1.map
      fun r => r.payload.length) = [2048, 2048, 0] := by
    rw [esp8266AT_send, h2, hsz]
    simp only [List.length_replicate]
    decide
  refine ⟨hsz2, ?_⟩
  have h3 := congrArg List.length hsz2
  simp only [List.length_map, List.length_cons, List.length_nil] at h3
  omega

/-- C10: a zero-length send still emits exactly one round, the command
`"AT+CIPSEND=0"` with CR LF, streams no payload bytes, and returns
0. -/
theorem claim_C10_zero_length_send :
    esp8266AT_send [] =
      ([⟨[65, 84, 43, 67, 73, 80, 83, 69, 78, 68, 61, 48, 13, 10], []⟩], 0) ∧
    esp8266AT_send [] = ([⟨roundCmd 0, []⟩], 0) := by
  constructor
  · rfl
  · rfl

/-! ## Claims about the connection state machine -/

/-- A NUL-free C string of the same length as a buffer determines the
buffer: if the string read out of `l ++ [0]` is `target`, then `l` is
`target` byte for byte. -/
theorem cstring_eq_of_len (target : List Nat) : ∀ l : List Nat,
    (∀ t ∈ target, t ≠ 0) → l.length = target.length →
    cstring (l ++ [0]) = target → l = target := by
  induction target with
  | nil =>
    intro l _ hlen _
    exact List.length_eq_zero.mp hlen
  | cons t ts ih =>
    intro l hz hlen h
    match l with
    | [] => simp at hlen
    | b :: bs =>
      by_cases hb : b = 0
      · subst hb
        simp [cstring] at h
      · have hcons : cstring ((b :: bs) ++ [0]) = b :: cstring (bs ++ [0]) := by
          simp [cstring, List.takeWhile_cons, hb]
        rw [hcons] at h
        have hbt : b = t := (List.cons.injEq _ _ _ _).mp h |>.1
        have hrest : cstring (bs ++ [0]) = ts := (List.cons.injEq _ _ _ _).mp h |>.2
        have hlen2 : bs.length = ts.length := by
          simp only [List.length_cons] at hlen
          omega
        have hzts : ∀ x ∈ ts, x ≠ 0 := fun x hx => hz x (List.mem_cons_of_mem t hx)
        rw [hbt, ih bs hzts hlen2 hrest]

/-- C5: a six-byte handshake reply equal to `"\r\nOK\r\n"` moves the
state to `AT_READY`; any other six-byte reply moves it to `ERROR` and
makes `esp8266AT_Connect` return `connect_failure`. -/
theorem claim_C5_handshake_reply (reply : List Nat) (t : Nat)
    (hlen : reply.length = 6) :
    (reply = CHECK_OK → check_AT reply = AT_READY) ∧
    (reply ≠ CHECK_OK → check_AT reply = ERROR ∧
      esp8266AT_Connect AT_READY reply t
        = (ERROR, EspResult.connect_failure, [ConnAct.handshake])) := by
  constructor
  · intro h
    subst h
    decide
  · intro hne
    have hc : check_AT reply = ERROR := by
      unfold check_AT
      rw [if_neg]
      intro h
      exact hne (cstring_eq_of_len CHECK_OK reply (by decide) (by rw [hlen]; rfl) h)
    refine ⟨hc, ?_⟩
    simp [esp8266AT_Connect, AT_READY, CONNECTED, AT_UNINITIALIZED, MQUEUE_UNINITIALIZED,
      RX_THREAD_UNINITIALIZED, ERROR, hc]

/-- Witness for C5 at the first six bytes of `"\r\nERROR\r\n"`. -/
theorem claim_C5_handshake_reply_witness :
    check_AT [13, 10, 69, 82, 82, 79] = ERROR ∧
    esp8266AT_Connect AT_READY [13, 10, 69, 82, 82, 79] 67
      = (ERROR, EspResult.connect_failure, [ConnAct.handshake]) :=
  (claim_C5_handshake_reply [13, 10, 69, 82, 82, 79] 67 rfl).2 (by decide)

/-- C6: after a passing handshake, a first TCP-open control byte `'C'`
makes the state `CONNECTED` and `Connect` return success; any other
first byte makes the state `ERROR` and `Connect` return
`connect_failure`. -/
theorem claim_C6_tcp_open_byte (t : Nat) :
    esp8266AT_Connect AT_READY CHECK_OK 67
      = (CONNECTED, EspResult.success, [ConnAct.handshake, ConnAct.tcpOpen]) ∧
    (t ≠ 67 → esp8266AT_Connect AT_READY CHECK_OK t
      = (ERROR, EspResult.connect_failure, [ConnAct.handshake, ConnAct.tcpOpen])) := by
  constructor
  · decide
  · intro ht
    have hca : check_AT CHECK_OK = AT_READY := by decide
    simp [esp8266AT_Connect, start_TCP, AT_READY, CONNECTED, AT_UNINITIALIZED,
      MQUEUE_UNINITIALIZED, RX_THREAD_UNINITIALIZED, ERROR, hca, ht]

/-- Witness for C6 at the failing first byte `'E'`. -/
theorem claim_C6_tcp_open_byte_witness :
    (69 ≠ 67) ∧ esp8266AT_Connect AT_READY CHECK_OK 69
      = (ERROR, EspResult.connect_failure, [ConnAct.handshake, ConnAct.tcpOpen]) :=
  ⟨by decide, (claim_C6_tcp_open_byte 69).2 (by decide)⟩

/-- C8: calling `Connect` while already `CONNECTED` returns success at
once — the state is unchanged and no initialization stage, handshake
or TCP-open exchange is performed. -/
theorem claim_C8_connect_idempotent (reply : List Nat) (t : Nat) :
    esp8266AT_Connect CONNECTED reply t = (CONNECTED, EspResult.success, []) := by
  simp [esp8266AT_Connect]

/-! ## Claim about the receive adapter -/

/-- C7: `recv` pops bytes from the data queue, one at a time and in
order, until the capacity is reached or the queue is empty; it returns
the number of bytes copied, and on an empty queue it returns 0 at
once. -/
theorem claim_C7_recv_drains_queue (q : List Nat) (n : Nat) :
    esp8266AT_recv q n = (q.take n, q.drop n) ∧
    (esp8266AT_recv q n).1.length = min n q.length ∧
    (q = [] → esp8266AT_recv q n = ([], []) ∧ (esp8266AT_recv q n).1.length = 0) := by
  have main : ∀ (q : List Nat) (n : Nat), esp8266AT_recv q n = (q.take n, q.drop n) := by
    intro q
    induction q with
    | nil =>
      intro n
      match n with
      | 0 => rfl
      | m + 1 => rfl
    | cons b bs ih =>
      intro n
      match n with
      | 0 => rfl
      | m + 1 => simp [esp8266AT_recv, ih m]
  refine ⟨main q n, ?_, ?_⟩
  · rw [main q n]
    simp [List.length_take]
  · intro hq
    subst hq
    rw [main [] n]
    simp

/-- Witness for C7 at an empty data queue. -/
theorem claim_C7_recv_drains_queue_witness :
    esp8266AT_recv [] 5 = ([], []) ∧ (esp8266AT_recv [] 5).1.length = 0 :=
  (claim_C7_recv_drains_queue [] 5).2.2 rfl

/-! ## Claim about the serial-link buffers -/

/-- Any single serial-link operation keeps the receive buffer within
capacity. -/
theorem serialStep_rx_le (cap : Nat) (st : SerialState) (op : SerialOp)
    (h : st.rxBuf.length ≤ cap) : (serialStep cap st op).rxBuf.length ≤ cap := by
  match op with
  | SerialOp.put b =>
    simp only [serialStep, xSerialPutChar]
    split
    · exact h
    · exact h
  | SerialOp.get =>
    simp only [serialStep, xSerialGetChar]
    match hq : st.rxBuf with
    | [] => simpa [hq] using h
    | b :: rest =>
      simp only [List.length_cons] at h ⊢
      simp only [List.length_cons, hq] at h
      simp
      omega
  | SerialOp.devRx b =>
    simp only [serialStep, rxPumpPut]
    split
    · simp only [List.length_append, List.length_cons, List.length_nil]
      omega
    · exact h
  | SerialOp.devTx =>
    simp only [serialStep, txPumpPop]
    match hq : st.txBuf with
    | [] => exact h
    | b :: rest => exact h

/-- Any single serial-link operation keeps the transmit buffer within
capacity. -/
theorem serialStep_tx_le (cap : Nat) (st : SerialState) (op : SerialOp)
    (h : st.txBuf.length ≤ cap) : (serialStep cap st op).txBuf.length ≤ cap := by
  match op with
  | SerialOp.put b =>
    simp only [serialStep, xSerialPutChar]
    split
    · simp only [List.length_append, List.length_cons, List.length_nil]
      omega
    · exact h
  | SerialOp.get =>
    simp only [serialStep, xSerialGetChar]
    match hq : st.rxBuf with
    | [] => exact h
    | b :: rest => exact h
  | SerialOp.devRx b =>
    simp only [serialStep, rxPumpPut]
    split
    · exact h
    · exact h
  | SerialOp.devTx =>
    simp only [serialStep, txPumpPop]
    match hq : st.txBuf with
    | [] => exact h
    | b :: rest =>
      simp only [hq, List.length_cons] at h
      simp
      omega

/-- Bounds hold after any operation sequence from bounded start
states. -/
theorem serialFold_bounds (cap : Nat) (ops : List SerialOp) :
    ∀ st : SerialState, st.rxBuf.length ≤ cap → st.txBuf.length ≤ cap →
      (ops.foldl (serialStep cap) st).rxBuf.length ≤ cap ∧
      (ops.foldl (serialStep cap) st).txBuf.length ≤ cap := by
  induction ops with
  | nil => exact fun st h1 h2 => ⟨h1, h2⟩
  | cons op t ih =>
    intro st h1 h2
    exact ih (serialStep cap st op) (serialStep_rx_le cap st op h1)
      (serialStep_tx_le cap st op h2)

/-- C9: under any interleaving of serial-link operations the occupancy
of either buffer never exceeds the capacity fixed at initialization; a
put on a full transmit buffer is rejected, returning 0 with the
buffers unchanged, and the receive worker stalls rather than appending
to a full receive buffer. -/
theorem claim_C9_buffer_capacity (cap : Nat) (ops : List SerialOp) :
    ((serialRun cap ops).rxBuf.length ≤ cap ∧ (serialRun cap ops).txBuf.length ≤ cap) ∧
    (∀ (st : SerialState) (b : Nat), cap ≤ st.txBuf.length →
      xSerialPutChar cap st b = (st, 0)) ∧
    (∀ (st : SerialState) (b : Nat), cap ≤ st.rxBuf.length → rxPumpPut cap st b = st) := by
  refine ⟨serialFold_bounds cap ops ⟨[], []⟩ (by simp) (by simp), ?_, ?_⟩
  · intro st b hfull
    unfold xSerialPutChar
    rw [if_neg]
    omega
  · intro st b hfull
    unfold rxPumpPut
    rw [if_neg]
    omega

/-- Witness for C9: a put on a transmit buffer already at capacity 1
is rejected. -/
theorem claim_C9_buffer_capacity_witness :
    (1 ≤ (SerialState.mk [] [9]).txBuf.length) ∧
    xSerialPutChar 1 (SerialState.mk [] [9]) 5 = (SerialState.mk [] [9], 0) :=
  ⟨by decide, (claim_C9_buffer_capacity 1 []).2.1 (SerialState.mk [] [9]) 5 (by decide)⟩
